import Mathlib

/-!
Verification of the Intelligent Document Intelligence Platform core
(enrichment pipeline, cache layer, semantic search) against its source.

Python strings are modeled as lists of characters (`PyStr`).  Machine floats
appearing in similarity scores are modeled as exact rationals.  External
collaborators (NLTK sentence tokenizer, HuggingFace summarizer, embedding
model, Redis transport, JSON codec of cached payloads, pgvector distance
computation) are modeled as explicit oracle parameters, mirroring the spec's
"external capability" treatment; everything the repository itself computes is
embedded as executable Lean definitions.
-/

set_option maxHeartbeats 1000000
set_option maxRecDepth 10000

namespace DocPlatform

/-- Python `str` modeled as a list of characters. -/
abbrev PyStr := List Char

/-- Characters Python's `str.split()` treats as separators (ASCII whitespace;
Python also strips some rarer Unicode whitespace, immaterial to the claims). -/
def isWS (c : Char) : Bool := c.isWhitespace

/-- Worker for `pySplitWs`: scans the string, `acc` holds the current word
reversed.  Mirrors Python `s.split()` (split on whitespace runs, no empty
words). -/
def splitWsAux : PyStr → PyStr → List PyStr
  | [], acc => if acc.isEmpty then [] else [acc.reverse]
  | c :: rest, acc =>
      if isWS c then
        if acc.isEmpty then splitWsAux rest []
        else acc.reverse :: splitWsAux rest []
      else splitWsAux rest (c :: acc)

/-- Python `s.split()` (no argument): maximal whitespace-free runs. -/
def pySplitWs (s : PyStr) : List PyStr := splitWsAux s []

/-- `len(s.split())`, the word count used throughout `app/ai_model/ai.py`. -/
def wordCount (s : PyStr) : Nat := (pySplitWs s).length

/-- Python `" ".join(parts)`. -/
def joinSpace : List PyStr → PyStr
  | [] => []
  | [s] => s
  | s :: s' :: rest => s ++ ' ' :: joinSpace (s' :: rest)

/-- `MAX_INPUT_WORDS` from `app/ai_model/ai.py` line 65. -/
def MAX_INPUT_WORDS : Nat := 3000

/-- `CHUNK_MAX_WORDS` from `app/ai_model/ai.py` line 66. -/
def CHUNK_MAX_WORDS : Nat := 300

/-- The sentence loop of `chunk_text` (`app/ai_model/ai.py` lines 77-90),
returning the chunks as sentence groups before `" ".join`.  `cur` is
`current_chunk`, `cnt` is `current_word_count`. -/
def chunkAux (maxWords : Nat) (cur : List PyStr) (cnt : Nat) :
    List PyStr → List (List PyStr)
  | [] => if cur.isEmpty then [] else [cur]
  | s :: rest =>
      if cnt + wordCount s ≤ maxWords then
        chunkAux maxWords (cur ++ [s]) (cnt + wordCount s) rest
      else if cur.isEmpty then chunkAux maxWords [s] (wordCount s) rest
      else cur :: chunkAux maxWords [s] (wordCount s) rest

/-- The chunk grouping computed by `chunk_text` on a given sentence list. -/
def chunkGroups (maxWords : Nat) (sentences : List PyStr) : List (List PyStr) :=
  chunkAux maxWords [] 0 sentences

/-- `chunk_text(text, max_words)` from `app/ai_model/ai.py` lines 71-91, with
`nltk.sent_tokenize(text)` (an external tokenizer) abstracted as the sentence
list input: each emitted chunk is `" ".join(current_chunk)`. -/
def chunk_text (sentences : List PyStr) (maxWords : Nat) : List PyStr :=
  (chunkGroups maxWords sentences).map joinSpace

/- ### Word-count arithmetic for joined chunks -/

theorem splitWsAux_append_space (b : PyStr) :
    ∀ (a : PyStr) (acc : PyStr),
      splitWsAux (a ++ ' ' :: b) acc = splitWsAux a acc ++ splitWsAux b [] := by
  intro a
  induction a with
  | nil =>
      intro acc
      by_cases h : acc.isEmpty <;> simp [splitWsAux, isWS, h, pySplitWs]
  | cons c a ih =>
      intro acc
      by_cases hws : isWS c
      · by_cases h : acc.isEmpty <;> simp [splitWsAux, hws, h, ih]
      · simp [splitWsAux, hws, ih]

theorem wordCount_append_space (a b : PyStr) :
    wordCount (a ++ ' ' :: b) = wordCount a + wordCount b := by
  simp [wordCount, pySplitWs, splitWsAux_append_space]

theorem wordCount_joinSpace (g : List PyStr) :
    wordCount (joinSpace g) = (g.map wordCount).sum := by
  induction g with
  | nil => simp [joinSpace, wordCount, pySplitWs, splitWsAux]
  | cons s rest ih =>
      cases rest with
      | nil => simp [joinSpace]
      | cons t r =>
          rw [show joinSpace (s :: t :: r) = s ++ ' ' :: joinSpace (t :: r) from rfl,
            wordCount_append_space, ih]
          simp

/- ### Chunking invariants -/

theorem chunkAux_flatten (maxWords : Nat) :
    ∀ (l : List PyStr) (cur : List PyStr) (cnt : Nat),
      (chunkAux maxWords cur cnt l).flatten = cur ++ l := by
  intro l
  induction l with
  | nil =>
      intro cur cnt
      by_cases h : cur.isEmpty
      · simp [chunkAux, h, List.isEmpty_iff.mp h]
      · simp [chunkAux, h]
  | cons s rest ih =>
      intro cur cnt
      by_cases hfit : cnt + wordCount s ≤ maxWords
      · simp [chunkAux, hfit, ih]
      · by_cases hemp : cur.isEmpty
        · simp [chunkAux, hfit, hemp, ih, List.isEmpty_iff.mp hemp]
        · simp [chunkAux, hfit, hemp, ih]

theorem chunkGroups_flatten (maxWords : Nat) (sentences : List PyStr) :
    (chunkGroups maxWords sentences).flatten = sentences := by
  simp [chunkGroups, chunkAux_flatten]

theorem chunkAux_budget (maxWords : Nat) :
    ∀ (l : List PyStr) (cur : List PyStr),
      (cur = [] ∨ (cur.map wordCount).sum ≤ maxWords ∨ ∃ s, cur = [s]) →
      ∀ g ∈ chunkAux maxWords cur ((cur.map wordCount).sum) l,
        (g.map wordCount).sum ≤ maxWords ∨ ∃ s, g = [s] := by
  intro l
  induction l with
  | nil =>
      intro cur hcur g hg
      by_cases h : cur.isEmpty
      · simp [chunkAux, h] at hg
      · simp [chunkAux, h] at hg
        subst hg
        rcases hcur with h0 | h1 | h2
        · subst h0; simp at h
        · exact Or.inl h1
        · exact Or.inr h2
  | cons s rest ih =>
      intro cur hcur g hg
      by_cases hfit : (cur.map wordCount).sum + wordCount s ≤ maxWords
      · rw [chunkAux, if_pos hfit] at hg
        have hsum : ((cur ++ [s]).map wordCount).sum
            = (cur.map wordCount).sum + wordCount s := by simp
        rw [← hsum] at hg
        exact ih (cur ++ [s]) (Or.inr (Or.inl (hsum ▸ hfit))) g hg
      · by_cases hemp : cur.isEmpty
        · rw [chunkAux, if_neg hfit, if_pos hemp,
            show wordCount s = ([s].map wordCount).sum by simp] at hg
          exact ih [s] (Or.inr (Or.inr ⟨s, rfl⟩)) g hg
        · rw [chunkAux, if_neg hfit, if_neg hemp] at hg
          rcases List.mem_cons.mp hg with hg | hg
          · subst hg
            rcases hcur with h0 | h1 | h2
            · subst h0; simp at hemp
            · exact Or.inl h1
            · exact Or.inr h2
          · rw [show wordCount s = ([s].map wordCount).sum by simp] at hg
            exact ih [s] (Or.inr (Or.inr ⟨s, rfl⟩)) g hg

theorem chunkGroups_budget (maxWords : Nat) (sentences : List PyStr) :
    ∀ g ∈ chunkGroups maxWords sentences,
      (g.map wordCount).sum ≤ maxWords ∨ ∃ s, g = [s] := by
  intro g hg
  have := chunkAux_budget maxWords sentences [] (Or.inl rfl)
  simp only [List.map_nil, List.sum_nil] at this
  exact this g hg

/-- C5: the chunking step never splits a sentence across two chunks — every
chunk produced by `chunk_text` is the space-join of a group of whole
consecutive sentences, and concatenating the groups in order reconstructs
the full ordered sentence sequence, each sentence appearing in exactly one
chunk. -/
theorem chunking_never_splits_sentences (sentences : List PyStr) (maxWords : Nat) :
    chunk_text sentences maxWords = (chunkGroups maxWords sentences).map joinSpace ∧
    (chunkGroups maxWords sentences).flatten = sentences :=
  ⟨rfl, chunkGroups_flatten maxWords sentences⟩

/-- A single sentence of 301 one-letter words. -/
def longSentence : PyStr := joinSpace (List.replicate 301 ['w'])

/-- C6 counterexample: a single sentence of 301 words becomes one chunk of 301
words, exceeding the 300-word budget `CHUNK_MAX_WORDS` — the claim that every
chunk has word count at most the budget is false. -/
theorem chunk_budget_counterexample :
    chunk_text [longSentence] CHUNK_MAX_WORDS = [longSentence] ∧
    wordCount longSentence = 301 ∧
    ¬ (wordCount longSentence ≤ CHUNK_MAX_WORDS) := by
  refine ⟨by decide, by decide, by decide⟩

/-- C6 (amended): every chunk produced by `chunk_text` has word count at most
the per-chunk budget, except that a chunk may consist of a single sentence
whose own word count already exceeds the budget (the accumulation check only
bounds chunks built from more than one sentence). -/
theorem chunk_word_budget (sentences : List PyStr) (maxWords : Nat) :
    ∀ c ∈ chunk_text sentences maxWords,
      wordCount c ≤ maxWords ∨ ∃ s ∈ sentences, c = s ∧ maxWords < wordCount s := by
  intro c hc
  rcases List.mem_map.mp hc with ⟨g, hg, rfl⟩
  rcases chunkGroups_budget maxWords sentences g hg with hb | ⟨s, rfl⟩
  · exact Or.inl (by rw [wordCount_joinSpace]; exact hb)
  · have hs : s ∈ sentences := by
      rw [← chunkGroups_flatten maxWords sentences]
      exact List.mem_flatten.mpr ⟨[s], hg, List.mem_singleton.mpr rfl⟩
    by_cases hle : wordCount (joinSpace [s]) ≤ maxWords
    · exact Or.inl hle
    · exact Or.inr ⟨s, hs, rfl, by simpa [joinSpace] using Nat.lt_of_not_le hle⟩

/-- Witness for `chunk_word_budget` at a concrete input. -/
theorem chunk_word_budget_witness :
    wordCount (joinSpace [['h', 'i']]) ≤ CHUNK_MAX_WORDS ∨
    ∃ s ∈ [['h', 'i']], joinSpace [['h', 'i']] = s ∧ CHUNK_MAX_WORDS < wordCount s :=
  chunk_word_budget [['h', 'i']] CHUNK_MAX_WORDS (joinSpace [['h', 'i']]) (by decide)

/- ### Cache keys (`app/cache.py`) -/

/-- Python values that appear as cache-key arguments in the repository:
database integer ids and strings. -/
inductive PyVal where
  | pint : Nat → PyVal
  | pstr : PyStr → PyVal
deriving DecidableEq

/-- Ordering used by `sorted(kwargs.items())`: Python compares the
`(name, value)` tuples by name first; the names are dict keys and therefore
unique, so the name comparison alone decides the order (values are never
compared).  String comparison is lexicographic on code points, which is the
lexicographic order on `List Char`. -/
def itemLe (a b : PyStr × PyVal) : Prop := a.1 ≤ b.1

instance : DecidableRel itemLe := fun a b => (inferInstance : Decidable (a.1 ≤ b.1))

instance : IsTotal (PyStr × PyVal) itemLe := ⟨fun a b => le_total a.1 b.1⟩

instance : IsTrans (PyStr × PyVal) itemLe := ⟨fun _ _ _ h1 h2 => le_trans h1 h2⟩

/-- `sorted(kwargs.items())` from `app/cache.py` line 43: a stable sort of the
keyword items by name. -/
def sortItems (l : List (PyStr × PyVal)) : List (PyStr × PyVal) :=
  List.insertionSort itemLe l

/-- One lowercase hexadecimal digit, as in `json.dumps` `\uXXXX` escapes. -/
def hexDigitChar (n : Nat) : Char :=
  if n < 10 then Char.ofNat (48 + n) else Char.ofNat (87 + n)

/-- Four hexadecimal digits of a code unit below 2^16. -/
def hex4 (n : Nat) : PyStr :=
  [hexDigitChar (n / 4096 % 16), hexDigitChar (n / 256 % 16),
   hexDigitChar (n / 16 % 16), hexDigitChar (n % 16)]

/-- JSON escaping of one character as performed by `json.dumps` with its
default `ensure_ascii=True`: printable ASCII passes through, the usual
two-character escapes apply, all other characters become `\uXXXX` (surrogate
pairs above the BMP). -/
def jsonEscapeChar (c : Char) : PyStr :=
  if c = '"' then ['\\', '"']
  else if c = '\\' then ['\\', '\\']
  else if c = '\n' then ['\\', 'n']
  else if c = '\r' then ['\\', 'r']
  else if c = '\t' then ['\\', 't']
  else if c.toNat = 8 then ['\\', 'b']
  else if c.toNat = 12 then ['\\', 'f']
  else if c.toNat < 32 then '\\' :: 'u' :: hex4 c.toNat
  else if c.toNat < 127 then [c]
  else if c.toNat < 65536 then '\\' :: 'u' :: hex4 c.toNat
  else
    ('\\' :: 'u' :: hex4 (55296 + (c.toNat - 65536) / 1024)) ++
      ('\\' :: 'u' :: hex4 (56320 + (c.toNat - 65536) % 1024))

/-- A JSON string literal: `"` + escaped characters + `"`. -/
def jsonQuote (s : PyStr) : PyStr :=
  '"' :: (s.map jsonEscapeChar).flatten ++ ['"']

/-- The decimal digit characters. -/
def digitChar (d : Nat) : Char := Char.ofNat (48 + d)

/-- Decimal rendering of a natural number (`json.dumps` for a Python int). -/
def natDecimal (n : Nat) : PyStr :=
  if n = 0 then ['0'] else ((Nat.digits 10 n).map digitChar).reverse

/-- JSON rendering of a cache-key argument value. -/
def jsonOfVal : PyVal → PyStr
  | .pint n => natDecimal n
  | .pstr s => jsonQuote s

/-- `", ".join`-style joining of rendered JSON array elements (`json.dumps`
default item separator). -/
def commaJoin : List PyStr → PyStr
  | [] => []
  | [s] => s
  | s :: t :: rest => s ++ ',' :: ' ' :: commaJoin (t :: rest)

/-- JSON rendering of one sorted kwargs item: the pair `(name, value)`
serializes as the two-element array `["name", value]`. -/
def jsonItem (p : PyStr × PyVal) : PyStr :=
  '[' :: (jsonQuote p.1 ++ (',' :: ' ' :: (jsonOfVal p.2 ++ [']'])))

/-- JSON rendering of the sorted kwargs list. -/
def jsonItems (l : List (PyStr × PyVal)) : PyStr :=
  '[' :: (commaJoin (l.map jsonItem) ++ [']'])

/-- Python `repr` of a value inside the `str(args)` rendering of the
positional-argument tuple.  Every repository call site passes no positional
arguments, so only the empty tuple `"()"` is ever exercised. -/
def pyReprVal : PyVal → PyStr
  | .pint n => natDecimal n
  | .pstr s => Char.ofNat 39 :: s ++ [Char.ofNat 39]

/-- Python `str(args)` for the positional-argument tuple. -/
def pyReprTuple : List PyVal → PyStr
  | [] => ['(', ')']
  | [v] => '(' :: (pyReprVal v ++ [',', ')'])
  | v :: w :: rest => '(' :: (commaJoin ((v :: w :: rest).map pyReprVal) ++ [')'])

/-- `generate_cache_key(prefix, *args, **kwargs)` from `app/cache.py` lines
37-47.  The source builds
`key_data = {"prefix": prefix, "args": str(args), "kwargs": sorted(kwargs.items()) if kwargs else []}`,
serializes it with `json.dumps(key_data, sort_keys=True)` (so the three fixed
dict keys appear in the order `"args"`, `"kwargs"`, `"prefix"`), and returns
`f"{prefix}:{md5(key_string).hexdigest()}"`.  MD5 is a fixed deterministic
digest of the key string; the model keeps the key string itself in place of
its hex digest: two keys are equal in the source exactly when they are equal
here (up to MD5 collisions, which are not modeled). -/
def generate_cache_key (ns : PyStr) (args : List PyVal)
    (kwargs : List (PyStr × PyVal)) : PyStr :=
  let sortedKwargs := if kwargs.isEmpty then [] else sortItems kwargs
  let keyString :=
    "\x7b\"args\": ".toList ++ jsonQuote (pyReprTuple args) ++
    ", \"kwargs\": ".toList ++ jsonItems sortedKwargs ++
    ", \"prefix\": ".toList ++ jsonQuote ns ++ "\x7d".toList
  ns ++ ':' :: keyString

/- ### Key-derivation lemmas -/

instance : Nonempty (PyStr × PyVal) := ⟨([], PyVal.pint 0)⟩

theorem sorted_perm_nodupNames_eq :
    ∀ (l1 l2 : List (PyStr × PyVal)), l1.Perm l2 →
      l1.Sorted itemLe → l2.Sorted itemLe → (l1.map Prod.fst).Nodup → l1 = l2 := by
  intro l1
  induction l1 with
  | nil =>
      intro l2 hp _ _ _
      exact (List.Perm.eq_nil hp.symm).symm
  | cons a t1 ih =>
      intro l2 hp hs1 hs2 hnd
      cases l2 with
      | nil => exact absurd (List.Perm.eq_nil hp) (by simp)
      | cons b t2 =>
          by_cases hab : a = b
          · subst hab
            rw [ih t2 hp.cons_inv hs1.of_cons hs2.of_cons
              (List.nodup_cons.mp hnd).2]
          · exfalso
            have ha2 : a ∈ t2 := by
              rcases List.mem_cons.mp (hp.subset (List.mem_cons_self a t1)) with h | h
              · exact absurd h hab
              · exact h
            have hb1 : b ∈ t1 := by
              rcases List.mem_cons.mp (hp.symm.subset (List.mem_cons_self b t2)) with h | h
              · exact absurd h.symm hab
              · exact h
            have h1 : itemLe a b := List.rel_of_sorted_cons hs1 b hb1
            have h2 : itemLe b a := List.rel_of_sorted_cons hs2 a ha2
            have hval : a.1 = b.1 := le_antisymm h1 h2
            have hmem : a.1 ∈ t1.map Prod.fst :=
              hval ▸ List.mem_map_of_mem Prod.fst hb1
            exact (List.nodup_cons.mp hnd).1 hmem

theorem sortItems_eq_of_perm (kw1 kw2 : List (PyStr × PyVal))
    (hperm : kw1.Perm kw2) (hnodup : (kw1.map Prod.fst).Nodup) :
    sortItems kw1 = sortItems kw2 := by
  have hp : (sortItems kw1).Perm (sortItems kw2) :=
    (List.perm_insertionSort itemLe kw1).trans
      (hperm.trans (List.perm_insertionSort itemLe kw2).symm)
  have hn : ((sortItems kw1).map Prod.fst).Nodup :=
    (((List.perm_insertionSort itemLe kw1).map Prod.fst).nodup_iff).mpr hnodup
  exact sorted_perm_nodupNames_eq (sortItems kw1) (sortItems kw2) hp
    (List.sorted_insertionSort itemLe kw1) (List.sorted_insertionSort itemLe kw2) hn

/-- C7: cache-key derivation is invariant under the order in which keyword
arguments are presented — for any two keyword-argument lists that are
permutations of each other with distinct names (as dict items always are),
`generate_cache_key` produces the same key. -/
theorem cache_key_kwargs_order_invariant (ns : PyStr) (args : List PyVal)
    (kw1 kw2 : List (PyStr × PyVal)) (hperm : kw1.Perm kw2)
    (hnodup : (kw1.map Prod.fst).Nodup) :
    generate_cache_key ns args kw1 = generate_cache_key ns args kw2 := by
  have hemp : kw1.isEmpty = kw2.isEmpty := by
    cases kw1 <;> cases kw2 <;> simp_all [List.Perm.nil_eq]
  simp only [generate_cache_key, hemp, sortItems_eq_of_perm kw1 kw2 hperm hnodup]

/-- Witness for `cache_key_kwargs_order_invariant` at a concrete input. -/
theorem cache_key_kwargs_order_invariant_witness :
    generate_cache_key "d".toList []
        [("b".toList, PyVal.pint 1), ("a".toList, PyVal.pint 2)] =
      generate_cache_key "d".toList []
        [("a".toList, PyVal.pint 2), ("b".toList, PyVal.pint 1)] :=
  cache_key_kwargs_order_invariant "d".toList []
    [("b".toList, PyVal.pint 1), ("a".toList, PyVal.pint 2)]
    [("a".toList, PyVal.pint 2), ("b".toList, PyVal.pint 1)]
    (by decide) (by decide)

theorem digitChar_inj_lt10 : ∀ x < 10, ∀ y < 10, digitChar x = digitChar y → x = y := by
  decide

theorem map_digitChar_inj :
    ∀ (l1 l2 : List Nat), (∀ x ∈ l1, x < 10) → (∀ x ∈ l2, x < 10) →
      l1.map digitChar = l2.map digitChar → l1 = l2 := by
  intro l1
  induction l1 with
  | nil =>
      intro l2 _ _ h
      cases l2 with
      | nil => rfl
      | cons y ys => simp at h
  | cons x xs ih =>
      intro l2 h1 h2 h
      cases l2 with
      | nil => simp at h
      | cons y ys =>
          simp only [List.map_cons, List.cons.injEq] at h
          rw [digitChar_inj_lt10 x (h1 x (by simp)) y (h2 y (by simp)) h.1,
            ih ys (fun a ha => h1 a (by simp [ha])) (fun a ha => h2 a (by simp [ha])) h.2]

theorem natDecimal_inj {m n : Nat} (h : natDecimal m = natDecimal n) : m = n := by
  by_cases hm : m = 0 <;> by_cases hn : n = 0
  · rw [hm, hn]
  · exfalso
    rw [natDecimal, if_pos hm, natDecimal, if_neg hn] at h
    have hd : (Nat.digits 10 n).map digitChar = [digitChar 0] := by
      have := congrArg List.reverse h
      simpa [digitChar] using this.symm
    have : Nat.digits 10 n = [0] :=
      map_digitChar_inj (Nat.digits 10 n) [0]
        (fun x hx => Nat.digits_lt_base (by norm_num) hx) (by simp) (by simpa using hd)
    have hn0 : n = 0 := by
      have := congrArg (Nat.ofDigits 10) this
      rwa [Nat.ofDigits_digits, show Nat.ofDigits 10 [0] = 0 by simp [Nat.ofDigits]] at this
    exact hn hn0
  · exfalso
    rw [natDecimal, if_neg hm, natDecimal, if_pos hn] at h
    have hd : (Nat.digits 10 m).map digitChar = [digitChar 0] := by
      have := congrArg List.reverse h
      simpa [digitChar] using this
    have : Nat.digits 10 m = [0] :=
      map_digitChar_inj (Nat.digits 10 m) [0]
        (fun x hx => Nat.digits_lt_base (by norm_num) hx) (by simp) (by simpa using hd)
    have hm0 : m = 0 := by
      have := congrArg (Nat.ofDigits 10) this
      rwa [Nat.ofDigits_digits, show Nat.ofDigits 10 [0] = 0 by simp [Nat.ofDigits]] at this
    exact hm hm0
  · rw [natDecimal, if_neg hm, natDecimal, if_neg hn] at h
    have hmap : (Nat.digits 10 m).map digitChar = (Nat.digits 10 n).map digitChar :=
      List.reverse_injective h
    have hdig : Nat.digits 10 m = Nat.digits 10 n :=
      map_digitChar_inj (Nat.digits 10 m) (Nat.digits 10 n)
        (fun x hx => Nat.digits_lt_base (by norm_num) hx)
        (fun x hx => Nat.digits_lt_base (by norm_num) hx) hmap
    exact Nat.digits_inj_iff.mp hdig

/- ### The repository's concrete cache keys -/

/-- Python `str.strip()`: drop leading and trailing whitespace. -/
def pyStrip (s : PyStr) : PyStr :=
  ((s.dropWhile isWS).reverse.dropWhile isWS).reverse

/-- Python `str.lower()` (ASCII case mapping; Python's full Unicode case
mapping differs only on non-ASCII letters, immaterial here since key equality
is only ever compared under identical normalization). -/
def pyLower (s : PyStr) : PyStr := s.map Char.toLower

/-- The document-view cache key derived in `get_document`
(`app/api/documents.py` line 296):
`generate_cache_key("document", document_id=document_id, user_id=current_user.id)`. -/
def document_cache_key (documentId userId : Nat) : PyStr :=
  generate_cache_key "document".toList []
    [("document_id".toList, PyVal.pint documentId),
     ("user_id".toList, PyVal.pint userId)]

/-- The search-result cache key derived in `semantic_search`
(`app/api/documents.py` line 215):
`generate_cache_key("search", query=query.strip().lower())`. -/
def search_cache_key (query : PyStr) : PyStr :=
  generate_cache_key "search".toList []
    [("query".toList, PyVal.pstr (pyLower (pyStrip query)))]

/-- C9: the document-view cache key is scoped to the requesting user — for
one document id, two different user ids always derive different cache keys,
so a cached document response for one user is never served to another. -/
theorem document_cache_key_user_scoped (d u1 u2 : Nat) (h : u1 ≠ u2) :
    document_cache_key d u1 ≠ document_cache_key d u2 := by
  intro heq
  apply h
  apply natDecimal_inj
  simpa [document_cache_key, generate_cache_key, sortItems, List.insertionSort,
    List.orderedInsert, itemLe, jsonItems, jsonItem, commaJoin, jsonQuote,
    jsonOfVal, jsonEscapeChar, pyReprTuple, List.append_cancel_left_eq,
    List.append_cancel_right_eq] using heq

/-- Witness for `document_cache_key_user_scoped` at a concrete input. -/
theorem document_cache_key_user_scoped_witness :
    document_cache_key 7 1 ≠ document_cache_key 7 2 :=
  document_cache_key_user_scoped 7 1 2 (by decide)

/-- C10: the search cache key is invariant under letter case and surrounding
whitespace of the query — two queries equal after `strip()` and `lower()`
derive the same cache key and therefore share one cache entry. -/
theorem search_cache_key_case_insensitive (q1 q2 : PyStr)
    (h : pyLower (pyStrip q1) = pyLower (pyStrip q2)) :
    search_cache_key q1 = search_cache_key q2 := by
  simp only [search_cache_key, h]

/-- Witness for `search_cache_key_case_insensitive` at a concrete input. -/
theorem search_cache_key_case_insensitive_witness :
    search_cache_key " Hi".toList = search_cache_key "hi ".toList :=
  search_cache_key_case_insensitive " Hi".toList "hi ".toList (by decide)

/- ### Enrichment pipeline (`app/api/documents.py`) -/

/-- The mutable part of a Document row touched by the enrichment pipeline. -/
structure DocState where
  status : PyStr
  summary : Option PyStr
deriving DecidableEq

/-- Outcomes of the external calls made by one background enrichment attempt:
`generate_summary` and `generate_embedding` (Model Service calls that may
raise, carrying the exception text), the `db.add`/`db.commit` of the new
`Embedding` row, and whether the status-update commit inside the exception
handler itself succeeds.  The embedding vector's numeric content is
irrelevant to the pipeline's control flow and is not carried. -/
structure BgEnv where
  summaryResult : Except PyStr PyStr
  embeddingResult : Except PyStr Unit
  saveResult : Except PyStr Unit
  statusUpdateOk : Bool

/-- Observable outcome of one background enrichment attempt: the final
document row, whether an Embedding record was inserted, and the committed
status values in write order. -/
structure BgResult where
  doc : Option DocState
  embeddingSaved : Bool
  statusWrites : List PyStr
deriving DecidableEq

/-- Diagnostic truncation from `app/api/documents.py` lines 85-87: messages
over 500 characters are cut to 497 plus `"..."`. -/
def truncateDiag (msg : PyStr) : PyStr :=
  if 500 < msg.length then msg.take 497 ++ "...".toList else msg

/-- The outer exception handler of `process_document_background`
(`app/api/documents.py` lines 77-92): looks the document up again, writes
`f"failed: {type(e).__name__}: {str(e)}"` (truncated) as its status; a
failure of that write itself is swallowed.  The raised exceptions are always
`Exception(...)` wrappers, so the type name rendered is `Exception`. -/
def bgFailureResult (doc0 : Option DocState) (updateOk : Bool) (msg : PyStr) : BgResult :=
  let errorMsg := truncateDiag ("failed: Exception: ".toList ++ msg)
  match doc0 with
  | none => { doc := none, embeddingSaved := false, statusWrites := [] }
  | some d =>
      if updateOk then
        { doc := some { d with status := errorMsg }, embeddingSaved := false,
          statusWrites := [errorMsg] }
      else { doc := some d, embeddingSaved := false, statusWrites := [] }

/-- `process_document_background(doc_id, text, db_session_maker)` from
`app/api/documents.py` lines 22-98, as a function of the attempt environment
and the document row at attempt start (`doc0 = None` models the id not being
found).  Summary generation failure and embedding generation failure both
re-raise and reach the outer handler; only after both succeed are
`doc.summary` and `doc.status = "completed"` committed, and only a failure of
the subsequent Embedding insert downgrades the status to the degraded
completed indicator (no truncation on that path). -/
def process_document_background (env : BgEnv) (doc0 : Option DocState) : BgResult :=
  match env.summaryResult with
  | .error e => bgFailureResult doc0 env.statusUpdateOk ("Summary generation failed: ".toList ++ e)
  | .ok summary =>
    match env.embeddingResult with
    | .error e => bgFailureResult doc0 env.statusUpdateOk ("Embedding generation failed: ".toList ++ e)
    | .ok _ =>
      match doc0 with
      | none => { doc := none, embeddingSaved := false, statusWrites := [] }
      | some _ =>
        match env.saveResult with
        | .ok _ =>
            { doc := some { status := "completed".toList, summary := some summary },
              embeddingSaved := true, statusWrites := ["completed".toList] }
        | .error e =>
            { doc := some { status := "completed (embedding save failed: ".toList ++ e ++ [')'],
                            summary := some summary },
              embeddingSaved := false,
              statusWrites := ["completed".toList,
                "completed (embedding save failed: ".toList ++ e ++ [')']] }

/-- The Document row fields constructed by `upload_document`
(`app/api/documents.py` lines 162-168). -/
structure UploadDoc where
  user_id : Nat
  filename : PyStr
  file_type : PyStr
  content : PyStr
  status : PyStr
deriving DecidableEq

/-- The Document row created at ingestion by `upload_document`: note
`status="processing"` — the column default `"pending"` of `app/models.py`
line 30 is overridden by the explicit keyword argument. -/
def upload_document_record (userId : Nat) (filename fileType content : PyStr) : UploadDoc :=
  { user_id := userId, filename := filename, file_type := fileType,
    content := content, status := "processing".toList }

/- ### C1: degraded completion on embedding failure -/

/-- C1 counterexample: when summary generation succeeds but embedding
*generation* fails, the attempt re-raises and is marked `failed: ...` — not a
completed-class status — and the generated summary is not persisted at all,
refuting the claim that every embedding-step failure after a successful
summary yields degraded completion with the summary stored. -/
theorem embedding_failure_counterexample :
    (process_document_background
        { summaryResult := Except.ok "S".toList,
          embeddingResult := Except.error "boom".toList,
          saveResult := Except.ok (), statusUpdateOk := true }
        (some { status := "processing".toList, summary := none })).doc =
      some { status := "failed: Exception: Embedding generation failed: boom".toList,
             summary := none } ∧
    ("failed: Exception: Embedding generation failed: boom".toList).take 9 ≠
      "completed".toList ∧
    (process_document_background
        { summaryResult := Except.ok "S".toList,
          embeddingResult := Except.error "boom".toList,
          saveResult := Except.ok (), statusUpdateOk := true }
        (some { status := "processing".toList, summary := none })).embeddingSaved = false := by
  refine ⟨by decide, by decide, by decide⟩

/-- C1 (amended): the degraded-completion behavior holds exactly when summary
and embedding generation both succeed but *saving* the Embedding record
fails: the final status is `completed (embedding save failed: ...)` — a
completed-class status, not a failed one — the generated (non-empty) summary
is persisted, and no Embedding record exists.  When embedding generation
itself fails, the attempt is instead marked failed and no summary is
persisted. -/
theorem embedding_save_failure_degrades (s e : PyStr) (d : DocState) (b : Bool)
    (hs : s ≠ []) :
    (process_document_background
        { summaryResult := Except.ok s, embeddingResult := Except.ok (),
          saveResult := Except.error e, statusUpdateOk := b } (some d)).doc =
      some { status := "completed (embedding save failed: ".toList ++ e ++ [')'],
             summary := some s } ∧
    ("completed (embedding save failed: ".toList ++ e ++ [')']).take 9 =
      "completed".toList ∧
    ("completed (embedding save failed: ".toList ++ e ++ [')']).take 7 ≠
      "failed:".toList ∧
    some s ≠ (none : Option PyStr) ∧ s ≠ [] ∧
    (process_document_background
        { summaryResult := Except.ok s, embeddingResult := Except.ok (),
          saveResult := Except.error e, statusUpdateOk := b } (some d)).embeddingSaved
      = false := by
  refine ⟨rfl, rfl, ?_, by simp, hs, rfl⟩
  show 'c' :: 'o' :: 'm' :: 'p' :: 'l' :: 'e' :: 't' :: [] ≠ "failed:".toList
  decide

/-- Witness for `embedding_save_failure_degrades` at a concrete input. -/
theorem embedding_save_failure_degrades_witness :
    (process_document_background
        { summaryResult := Except.ok "S".toList, embeddingResult := Except.ok (),
          saveResult := Except.error "x".toList, statusUpdateOk := true }
        (some { status := "processing".toList, summary := none })).doc =
      some { status := "completed (embedding save failed: ".toList ++ "x".toList ++ [')'],
             summary := some "S".toList } ∧
    ("completed (embedding save failed: ".toList ++ "x".toList ++ [')']).take 9 =
      "completed".toList ∧
    ("completed (embedding save failed: ".toList ++ "x".toList ++ [')']).take 7 ≠
      "failed:".toList ∧
    some "S".toList ≠ (none : Option PyStr) ∧ "S".toList ≠ [] ∧
    (process_document_background
        { summaryResult := Except.ok "S".toList, embeddingResult := Except.ok (),
          saveResult := Except.error "x".toList, statusUpdateOk := true }
        (some { status := "processing".toList, summary := none })).embeddingSaved
      = false :=
  embedding_save_failure_degrades "S".toList "x".toList
    { status := "processing".toList, summary := none } true (by decide)

/- ### C2: status lifecycle -/

/-- C2 counterexample: the document record created at ingestion has status
`"processing"`, not `"pending"` — the claim that every record starts as
`pending` is false for the upload path (the only ingestion path). -/
theorem upload_status_counterexample :
    (upload_document_record 1 "a.txt".toList "txt".toList "hello".toList).status =
      "processing".toList ∧
    "processing".toList ≠ "pending".toList := by
  exact ⟨rfl, by decide⟩

theorem bgFailureResult_writes (doc0 : Option DocState) (su : Bool) (msg : PyStr) :
    (bgFailureResult doc0 su msg).statusWrites = [] ∨
    (bgFailureResult doc0 su msg).statusWrites =
      [truncateDiag ("failed: Exception: ".toList ++ msg)] := by
  cases doc0 with
  | none => exact Or.inl rfl
  | some d =>
      cases su with
      | false => exact Or.inl rfl
      | true => exact Or.inr rfl

theorem failDiag_ne_initial (m : PyStr) :
    truncateDiag ("failed: Exception: ".toList ++ m) ≠ "pending".toList ∧
    truncateDiag ("failed: Exception: ".toList ++ m) ≠ "processing".toList := by
  unfold truncateDiag
  by_cases h : 500 < ("failed: Exception: ".toList ++ m).length
  · rw [if_pos h]
    constructor <;> intro heq
    · have h2 : some 'f' = some 'p' := congrArg List.head? heq
      simp at h2
    · have h2 : some 'f' = some 'p' := congrArg List.head? heq
      simp at h2
  · rw [if_neg h]
    constructor <;> intro heq
    · have h2 : some 'f' = some 'p' := congrArg List.head? heq
      simp at h2
    · have h2 : some 'f' = some 'p' := congrArg List.head? heq
      simp at h2

theorem degraded_ne_initial (e : PyStr) :
    ("completed (embedding save failed: ".toList ++ e ++ [')']) ≠ "pending".toList ∧
    ("completed (embedding save failed: ".toList ++ e ++ [')']) ≠ "processing".toList := by
  constructor <;> intro heq
  · have h2 : some 'c' = some 'p' := congrArg List.head? heq
    simp at h2
  · have h2 : some 'c' = some 'p' := congrArg List.head? heq
    simp at h2

/-- C2 (amended): every document record is created at ingestion with status
`"processing"` (the `"pending"` column default is overridden by
`upload_document`), and within a single enrichment attempt the status only
advances from `"processing"` to terminal values: either a single
`failed: ...` diagnostic write, or a `"completed"` write optionally followed
by the degraded `completed (embedding save failed: ...)` overwrite; no status
write ever returns the document to `"pending"` or `"processing"`. -/
theorem document_status_lifecycle :
    (∀ (u : Nat) (fn ft c : PyStr),
      (upload_document_record u fn ft c).status = "processing".toList) ∧
    (∀ (env : BgEnv) (doc0 : Option DocState),
      ((process_document_background env doc0).statusWrites = [] ∨
       (∃ e, (process_document_background env doc0).statusWrites =
          [truncateDiag ("failed: Exception: ".toList ++ e)]) ∨
       (process_document_background env doc0).statusWrites = ["completed".toList] ∨
       (∃ e, (process_document_background env doc0).statusWrites =
          ["completed".toList,
           "completed (embedding save failed: ".toList ++ e ++ [')']])) ∧
      ∀ w ∈ (process_document_background env doc0).statusWrites,
        w ≠ "pending".toList ∧ w ≠ "processing".toList) := by
  refine ⟨fun u fn ft c => rfl, fun env doc0 => ?_⟩
  obtain ⟨sr, er, sv, su⟩ := env
  cases sr with
  | error e =>
      have hw := bgFailureResult_writes doc0 su ("Summary generation failed: ".toList ++ e)
      have hred : process_document_background ⟨Except.error e, er, sv, su⟩ doc0 =
          bgFailureResult doc0 su ("Summary generation failed: ".toList ++ e) := rfl
      rw [hred]
      rcases hw with hw | hw
      · exact ⟨Or.inl hw, by rw [hw]; intro w hwmem; cases hwmem⟩
      · refine ⟨Or.inr (Or.inl ⟨_, hw⟩), ?_⟩
        rw [hw]
        intro w hwmem
        rw [List.mem_singleton.mp hwmem]
        exact failDiag_ne_initial _
  | ok s =>
      cases er with
      | error e =>
          have hw := bgFailureResult_writes doc0 su ("Embedding generation failed: ".toList ++ e)
          have hred : process_document_background ⟨Except.ok s, Except.error e, sv, su⟩ doc0 =
              bgFailureResult doc0 su ("Embedding generation failed: ".toList ++ e) := rfl
          rw [hred]
          rcases hw with hw | hw
          · exact ⟨Or.inl hw, by rw [hw]; intro w hwmem; cases hwmem⟩
          · refine ⟨Or.inr (Or.inl ⟨_, hw⟩), ?_⟩
            rw [hw]
            intro w hwmem
            rw [List.mem_singleton.mp hwmem]
            exact failDiag_ne_initial _
      | ok uv =>
          cases doc0 with
          | none =>
              refine ⟨Or.inl rfl, ?_⟩
              intro w hwmem
              cases hwmem
          | some d =>
              cases sv with
              | ok uv2 =>
                  refine ⟨Or.inr (Or.inr (Or.inl rfl)), ?_⟩
                  intro w hwmem
                  rw [List.mem_singleton.mp hwmem]
                  exact ⟨by decide, by decide⟩
              | error e =>
                  refine ⟨Or.inr (Or.inr (Or.inr ⟨e, rfl⟩)), ?_⟩
                  intro w hwmem
                  rcases List.mem_cons.mp hwmem with hw | hw
                  · rw [hw]; exact ⟨by decide, by decide⟩
                  · rw [List.mem_singleton.mp hw]
                    exact degraded_ne_initial e

/- ### Cache layer get/set (`app/cache.py` lines 49-76) -/

/-- The error classes absorbed by the cache layer's `except` clauses:
`redis.RedisError` transport errors and serialization errors
(`json.JSONDecodeError` on read, `TypeError` on write).  These are exactly
the exceptions the spec calls transport/serialization errors. -/
inductive CacheErr where
  | redisError
  | serializationError

/-- Behavior of the external Redis client and JSON codec for one call:
`available = false` models `get_redis_client()` returning `None` (the lazily
probed connection failed for the process); the transport and codec oracles
either return a result or raise an error of a caught class. -/
structure CacheEnv (V : Type) where
  available : Bool
  transportGet : PyStr → Except CacheErr (Option PyStr)
  loads : PyStr → Except CacheErr V
  dumps : V → Except CacheErr PyStr
  transportSetex : PyStr → Nat → PyStr → Except CacheErr Unit

/-- `get_cache(key)` from `app/cache.py` lines 49-61: `None` when the client
is unavailable; otherwise `client.get` then `json.loads` when the raw value
is truthy, any caught error falling through to `return None`.  Totality of
this definition is the no-exception-propagates guarantee. -/
def get_cache {V : Type} (env : CacheEnv V) (key : PyStr) : Option V :=
  if env.available then
    match env.transportGet key with
    | .error _ => none
    | .ok none => none
    | .ok (some raw) =>
        if raw.isEmpty then none
        else
          match env.loads raw with
          | .error _ => none
          | .ok v => some v
  else none

/-- `settings.REDIS_CACHE_TTL` (`app/config.py` line 14). -/
def REDIS_CACHE_TTL : Nat := 3600

/-- `ttl = ttl or settings.REDIS_CACHE_TTL` (`app/cache.py` line 70): Python
`or` replaces both `None` and a falsy `0` with the default. -/
def resolveTtl : Option Nat → Nat
  | none => REDIS_CACHE_TTL
  | some t => if t = 0 then REDIS_CACHE_TTL else t

/-- `set_cache(key, value, ttl)` from `app/cache.py` lines 63-76: `False` when
the client is unavailable; otherwise `json.dumps` then `client.setex`, a
caught error falling through to `return False`. -/
def set_cache {V : Type} (env : CacheEnv V) (key : PyStr) (value : V)
    (ttl : Option Nat) : Bool :=
  if env.available then
    match env.dumps value with
    | .error _ => false
    | .ok raw =>
        match env.transportSetex key (resolveTtl ttl) raw with
        | .error _ => false
        | .ok _ => true
  else false

/-- C8: cache reads and writes never raise — on every failure path
(unavailable backend, transport error, serialization error) `get_cache`
returns a miss and `set_cache` returns `False`; the definitions being total
functions into `Option V` and `Bool` is the no-exception guarantee, and this
theorem checks each failure path's value for every behavior of the external
client and codec. -/
theorem cache_errors_degrade_silently (V : Type) (key : PyStr) (v : V)
    (ttl : Option Nat) (tg : PyStr → Except CacheErr (Option PyStr))
    (ld : PyStr → Except CacheErr V) (dp : V → Except CacheErr PyStr)
    (ts : PyStr → Nat → PyStr → Except CacheErr Unit) (er : CacheErr) (raw : PyStr) :
    get_cache { available := false, transportGet := tg, loads := ld,
                dumps := dp, transportSetex := ts } key = none ∧
    set_cache { available := false, transportGet := tg, loads := ld,
                dumps := dp, transportSetex := ts } key v ttl = false ∧
    get_cache { available := true, transportGet := fun _ => Except.error er,
                loads := ld, dumps := dp, transportSetex := ts } key = none ∧
    get_cache { available := true, transportGet := fun _ => Except.ok (some raw),
                loads := fun _ => Except.error er, dumps := dp,
                transportSetex := ts } key = none ∧
    set_cache { available := true, transportGet := tg, loads := ld,
                dumps := fun _ => Except.error er, transportSetex := ts } key v ttl
      = false ∧
    set_cache { available := true, transportGet := tg, loads := ld,
                dumps := dp, transportSetex := fun _ _ _ => Except.error er } key v ttl
      = false := by
  refine ⟨rfl, rfl, rfl, ?_, rfl, ?_⟩
  · by_cases hr : raw.isEmpty <;> simp [get_cache, hr]
  · cases hdp : dp v <;> simp [set_cache, hdp]

/- ### Semantic search (`app/api/documents.py` lines 198-276) -/

/-- One row of the SQL join `documents ⋈ embeddings ⋈ users` visible to the
ranking query, carrying the pgvector cosine distance
`e.embedding <=> CAST(:query_vector AS vector)` that the external store
computes for the current query vector.  Similarity values are modeled as
exact rationals (the source holds IEEE floats; the ordering and threshold
logic under verification is representation independent). -/
structure SearchRow where
  id : Nat
  filename : PyStr
  summary : PyStr
  username : PyStr
  distance : ℚ
deriving DecidableEq

/-- One formatted entry of the `results` list built by `semantic_search`. -/
structure SearchResult where
  id : Nat
  filename : PyStr
  summary : PyStr
  username : PyStr
  similarity : ℚ
deriving DecidableEq

/-- The three response shapes of `semantic_search`: `"No results found"`,
`"No relevant results found"`, and a non-empty result list. -/
inductive SearchResponse where
  | noResults
  | noRelevant
  | results : List SearchResult → SearchResponse
deriving DecidableEq

/-- Row ordering of the SQL `ORDER BY e.embedding <=> :query_vector`. -/
def distLe (a b : SearchRow) : Prop := a.distance ≤ b.distance

instance : DecidableRel distLe := fun a b => (inferInstance : Decidable (a.distance ≤ b.distance))

instance : IsTotal SearchRow distLe := ⟨fun a b => le_total a.distance b.distance⟩

instance : IsTrans SearchRow distLe := ⟨fun _ _ _ h1 h2 => le_trans h1 h2⟩

/-- The relational semantics of the ranking query (`documents.py` lines
231-241): all joined rows ordered by ascending cosine distance, truncated by
`LIMIT 10`. -/
def rankRows (rows : List SearchRow) : List SearchRow :=
  (List.insertionSort distLe rows).take 10

/-- Round half to even to an integer, as Python's builtin `round`. -/
def roundHalfEven (q : ℚ) : ℤ :=
  if q - Rat.floor q < 1/2 then Rat.floor q
  else if 1/2 < q - Rat.floor q then Rat.floor q + 1
  else if Rat.floor q % 2 = 0 then Rat.floor q else Rat.floor q + 1

/-- Python `round(x, 4)` as applied to each reported similarity
(`documents.py` line 256). -/
def round4 (q : ℚ) : ℚ := (roundHalfEven (q * 10000) : ℚ) / 10000

/-- Formatting of one kept row (`documents.py` lines 250-258): similarity is
`1 - distance` as selected by the SQL, rounded to 4 decimal places. -/
def formatRow (r : SearchRow) : SearchResult :=
  { id := r.id, filename := r.filename, summary := r.summary,
    username := r.username, similarity := round4 (1 - r.distance) }

/-- The floor filter `float(r.similarity) > 0.2` of `documents.py` line 258,
applied to the raw (un-rounded) similarity `1 - distance`. -/
def aboveFloor (r : SearchRow) : Bool := decide (1/5 < 1 - r.distance)

/-- The ranking/filter/format core of `semantic_search` executed on a cache
miss (`documents.py` lines 241-270): empty SQL result and emptied-by-filter
result produce the two distinct empty responses; kept rows are those whose
raw similarity `1 - distance` exceeds the `0.2` floor. -/
def semantic_search_miss (rows : List SearchRow) : SearchResponse :=
  if (rankRows rows).isEmpty then SearchResponse.noResults
  else if (((rankRows rows).filter aboveFloor).map formatRow).isEmpty then
    SearchResponse.noRelevant
  else SearchResponse.results (((rankRows rows).filter aboveFloor).map formatRow)

/-- External dependencies of one `semantic_search` request: the cache content
and the query-embedding model call. -/
structure SearchEnv where
  cache : PyStr → Option SearchResponse
  embed : PyStr → Except PyStr (List ℚ)

/-- `semantic_search(query)` from `app/api/documents.py` lines 198-276 as a
function of its environment and the store's joined rows: empty queries are
rejected, a cache hit is returned verbatim, embedding failure or an empty
embedding is a hard error, and otherwise the ranking core runs. -/
def semantic_search (env : SearchEnv) (rows : List SearchRow) (query : PyStr) :
    Except PyStr SearchResponse :=
  if (pyStrip query).isEmpty then Except.error "Query cannot be empty".toList
  else
    match env.cache (search_cache_key query) with
    | some cached => Except.ok cached
    | none =>
        match env.embed query with
        | .error e => Except.error e
        | .ok qe =>
            if qe.isEmpty then Except.error "Failed to generate query embedding".toList
            else Except.ok (semantic_search_miss rows)

/- ### Rounding lemmas -/

theorem ratFloor_eq (q : ℚ) : (Rat.floor q : ℤ) = ⌊q⌋ := by
  rw [Rat.floor_def', Rat.floor_def]

theorem roundHalfEven_eq (q : ℚ) :
    roundHalfEven q =
      if Int.fract q < 1/2 then ⌊q⌋
      else if 1/2 < Int.fract q then ⌊q⌋ + 1
      else if ⌊q⌋ % 2 = 0 then ⌊q⌋ else ⌊q⌋ + 1 := by
  simp only [roundHalfEven, ratFloor_eq, Int.fract]

theorem roundHalfEven_ge_floor (q : ℚ) : ⌊q⌋ ≤ roundHalfEven q := by
  rw [roundHalfEven_eq]
  split_ifs <;> omega

theorem roundHalfEven_le_floor_add_one (q : ℚ) : roundHalfEven q ≤ ⌊q⌋ + 1 := by
  rw [roundHalfEven_eq]
  split_ifs <;> omega

theorem roundHalfEven_mono {x y : ℚ} (h : x ≤ y) : roundHalfEven x ≤ roundHalfEven y := by
  have hf : ⌊x⌋ ≤ ⌊y⌋ := Int.floor_le_floor h
  rcases lt_or_eq_of_le hf with hlt | heq
  · have h1 := roundHalfEven_le_floor_add_one x
    have h2 := roundHalfEven_ge_floor y
    omega
  · have hfr : Int.fract x ≤ Int.fract y := by
      unfold Int.fract
      rw [← heq]
      have : (⌊x⌋ : ℚ) ≤ (⌊x⌋ : ℚ) := le_refl _
      linarith
    rw [roundHalfEven_eq, roundHalfEven_eq]
    rw [← heq]
    split_ifs <;> first | omega | linarith

theorem round4_mono {x y : ℚ} (h : x ≤ y) : round4 x ≤ round4 y := by
  unfold round4
  have hm : roundHalfEven (x * 10000) ≤ roundHalfEven (y * 10000) :=
    roundHalfEven_mono (by linarith)
  have : ((roundHalfEven (x * 10000) : ℚ)) ≤ ((roundHalfEven (y * 10000) : ℚ)) := by
    exact_mod_cast hm
  linarith

theorem round4_ge_fifth {x : ℚ} (h : 1/5 < x) : 1/5 ≤ round4 x := by
  unfold round4
  have hfloor : (2000 : ℤ) ≤ ⌊x * 10000⌋ := by
    rw [Int.le_floor]
    push_cast
    linarith
  have hr : (2000 : ℤ) ≤ roundHalfEven (x * 10000) :=
    le_trans hfloor (roundHalfEven_ge_floor _)
  have : (2000 : ℚ) ≤ (roundHalfEven (x * 10000) : ℚ) := by exact_mod_cast hr
  linarith

/- ### C3: ranked result properties -/

/-- Search environment for the C3 concrete scenario: empty cache, constant
query embedding. -/
def cexSearchEnv : SearchEnv :=
  { cache := fun _ => none, embed := fun _ => Except.ok [1] }

/-- A candidate row whose raw similarity `0.20001` exceeds the floor but
rounds down to `0.2`. -/
def cexRow : SearchRow :=
  { id := 1, filename := ['f'], summary := ['s'], username := ['u'],
    distance := 79999/100000 }

/-- The formatted result the scenario returns. -/
def cexResult : SearchResult :=
  { id := 1, filename := ['f'], summary := ['s'], username := ['u'],
    similarity := 1/5 }

theorem round4_cex : round4 (1 - (79999 : ℚ)/100000) = 1/5 := by
  have hq : ((1 : ℚ) - 79999/100000) * 10000 = 20001/10 := by norm_num
  have hfl : ⌊((1 : ℚ) - 79999/100000) * 10000⌋ = 2000 := by
    rw [hq, Int.floor_eq_iff]
    constructor <;> norm_num
  rw [round4, roundHalfEven_eq]
  simp only [Int.fract, hfl, hq]
  norm_num

theorem search_cex_eval :
    semantic_search cexSearchEnv [cexRow] ['a'] =
      Except.ok (SearchResponse.results [cexResult]) := by
  have habove : aboveFloor cexRow = true := by
    rw [aboveFloor, decide_eq_true_eq]
    norm_num [cexRow]
  have hrank : rankRows [cexRow] = [cexRow] := by
    simp [rankRows, List.insertionSort, List.orderedInsert]
  have hformat : formatRow cexRow = cexResult := by
    rw [formatRow]
    show ({ id := 1, filename := ['f'], summary := ['s'], username := ['u'],
            similarity := round4 (1 - cexRow.distance) } : SearchResult) = cexResult
    rw [show cexRow.distance = 79999/100000 from rfl, round4_cex]
    rfl
  rw [semantic_search, if_neg (by decide)]
  show Except.ok (semantic_search_miss [cexRow]) =
    Except.ok (SearchResponse.results [cexResult])
  rw [semantic_search_miss, hrank]
  rw [if_neg (by decide), List.filter_cons_of_pos habove]
  simp only [List.filter_nil, List.map_cons, List.map_nil, hformat]
  rw [if_neg (by decide)]

/-- C3 counterexample: on a cache miss, a candidate with raw similarity
`0.20001 > 0.2` passes the floor filter but is reported with its similarity
rounded to 4 decimal places, i.e. exactly `0.2` — so a returned similarity is
not strictly greater than `0.2`, refuting that conjunct of the claim. -/
theorem search_similarity_floor_counterexample :
    semantic_search cexSearchEnv [cexRow] ['a'] =
      Except.ok (SearchResponse.results [cexResult]) ∧
    1/5 < 1 - cexRow.distance ∧
    cexResult.similarity = 1/5 ∧
    ¬ (1/5 < (1 : ℚ)/5) :=
  ⟨search_cex_eval, by norm_num [cexRow], rfl, by norm_num⟩

/-- C3 (amended): every result list returned by `semantic_search` on a cache
miss has at most 10 entries, its reported similarities are non-increasing in
return order, every entry comes from a ranked row whose raw similarity
`1 - distance` is strictly greater than `0.2` (candidates at or below the
floor are filtered out), and every reported (4-decimal-rounded) similarity is
at least `0.2` — but, because of the rounding, not necessarily strictly
greater. -/
theorem search_results_ranked (env : SearchEnv) (rows : List SearchRow)
    (query : PyStr) (res : List SearchResult)
    (hmiss : env.cache (search_cache_key query) = none)
    (hok : semantic_search env rows query = Except.ok (SearchResponse.results res)) :
    res.length ≤ 10 ∧
    res.Pairwise (fun a b => b.similarity ≤ a.similarity) ∧
    (∀ r ∈ res, 1/5 ≤ r.similarity) ∧
    (∀ r ∈ res, ∃ row ∈ rankRows rows, r = formatRow row ∧ 1/5 < 1 - row.distance) := by
  rw [semantic_search] at hok
  split at hok
  · exact Except.noConfusion hok
  · split at hok
    · rename_i cached hcache
      rw [hmiss] at hcache
      exact Option.noConfusion hcache
    · split at hok
      · exact Except.noConfusion hok
      · split at hok
        · exact Except.noConfusion hok
        · have hmiss2 : semantic_search_miss rows = SearchResponse.results res :=
            Except.ok.inj hok
          rw [semantic_search_miss] at hmiss2
          by_cases hr : (rankRows rows).isEmpty
          · rw [if_pos hr] at hmiss2; cases hmiss2
          · rw [if_neg hr] at hmiss2
            by_cases hf : (((rankRows rows).filter aboveFloor).map formatRow).isEmpty
            · rw [if_pos hf] at hmiss2; cases hmiss2
            · rw [if_neg hf] at hmiss2
              have hres : res = ((rankRows rows).filter aboveFloor).map formatRow :=
                (SearchResponse.results.inj hmiss2).symm
              subst hres
              refine ⟨?_, ?_, ?_, ?_⟩
              · rw [List.length_map]
                exact le_trans (List.length_filter_le _ _) (List.length_take_le 10 _)
              · have hsorted : (List.insertionSort distLe rows).Pairwise distLe :=
                  List.sorted_insertionSort distLe rows
                have hranked : (rankRows rows).Pairwise distLe :=
                  hsorted.sublist (List.take_sublist 10 _)
                have hfilt : ((rankRows rows).filter aboveFloor).Pairwise distLe :=
                  hranked.sublist (List.filter_sublist _)
                exact hfilt.map formatRow
                  (fun a b hab => round4_mono (by simp only [distLe] at hab; linarith))
              · intro r hrmem
                rcases List.mem_map.mp hrmem with ⟨row, hrowmem, rfl⟩
                have hb : aboveFloor row = true := List.of_mem_filter hrowmem
                rw [aboveFloor] at hb
                exact round4_ge_fifth (of_decide_eq_true hb)
              · intro r hrmem
                rcases List.mem_map.mp hrmem with ⟨row, hrowmem, rfl⟩
                have hb : aboveFloor row = true := List.of_mem_filter hrowmem
                rw [aboveFloor] at hb
                exact ⟨row, List.mem_of_mem_filter hrowmem, rfl, of_decide_eq_true hb⟩

/-- Witness for `search_results_ranked` at a concrete input. -/
theorem search_results_ranked_witness :
    [cexResult].length ≤ 10 ∧
    [cexResult].Pairwise (fun a b => b.similarity ≤ a.similarity) ∧
    (∀ r ∈ [cexResult], 1/5 ≤ r.similarity) ∧
    (∀ r ∈ [cexResult], ∃ row ∈ rankRows [cexRow],
      r = formatRow row ∧ 1/5 < 1 - row.distance) :=
  search_results_ranked cexSearchEnv [cexRow] ['a'] [cexResult] rfl search_cex_eval

/- ### Summarization (`app/ai_model/ai.py` lines 103-200) -/

/-- External dependencies of `generate_summary`: the NLTK sentence tokenizer
and the loaded summarization pipeline.  The summarizer may raise (carrying
the exception text); for a fixed loaded model it is deterministic in its
input text (the fixed generation parameters differ between the per-chunk and
final-compression call sites but are constant per site). -/
structure AiEnv where
  sent_tokenize : PyStr → List PyStr
  summarize : PyStr → Except PyStr PyStr

/-- `get_text_hash(text)` from `app/ai_model/ai.py` lines 94-98: the md5 hex
digest of `" ".join(text.strip().split())`.  As with cache keys, the
deterministic digest is modeled by its preimage, the normalized text
(collisions are not modeled). -/
def get_text_hash (text : PyStr) : PyStr :=
  joinSpace (pySplitWs (pyStrip text))

/-- The summary cache key (`ai.py` lines 115-116 and 193-194):
`generate_cache_key("summary", text_hash=get_text_hash(text))`. -/
def summary_cache_key (text : PyStr) : PyStr :=
  generate_cache_key "summary".toList []
    [("text_hash".toList, PyVal.pstr (get_text_hash text))]

/-- The input cap (`ai.py` lines 126-129): texts over `MAX_INPUT_WORDS` words
are truncated (the source rebinds `text` to this value). -/
def truncateInput (text : PyStr) : PyStr :=
  if MAX_INPUT_WORDS < (pySplitWs text).length
  then joinSpace ((pySplitWs text).take MAX_INPUT_WORDS) else text

/-- The per-chunk summarization loop (`ai.py` lines 143-167): chunks under 30
words are included verbatim; other chunks go to the summarizer, whose failure
degrades to the chunk's first 200 characters.  Returns the per-chunk
summaries in order together with the number of summarizer invocations. -/
def summarizeChunks (env : AiEnv) : List PyStr → List PyStr × Nat
  | [] => ([], 0)
  | c :: rest =>
      match summarizeChunks env rest with
      | (tail, calls) =>
          if wordCount c < 30 then (c :: tail, calls)
          else
            match env.summarize c with
            | .ok s => (s :: tail, calls + 1)
            | .error _ => (c.take 200 :: tail, calls + 1)

/-- Observable outcome of one `generate_summary` call: the returned summary,
the number of summarizer invocations, and the cache write performed
(key, value), if any. -/
structure SummaryOutcome where
  result : PyStr
  modelCalls : Nat
  cacheWrite : Option (PyStr × PyStr)
deriving DecidableEq

/-- The final-compression and cache-store step (`ai.py` lines 169-198): one
more summarizer pass when the concatenation exceeds 250 words, its failure
truncating to 200 words; the result is stored under the hash of `text2`, the
(possibly truncated) rebinding of `text`. -/
def finishSummary (env : AiEnv) (text2 : PyStr) (p : List PyStr × Nat) : SummaryOutcome :=
  if 250 < wordCount (joinSpace p.1) then
    match env.summarize (joinSpace p.1) with
    | .ok s =>
        { result := s, modelCalls := p.2 + 1,
          cacheWrite := some (summary_cache_key text2, s) }
    | .error _ =>
        { result := joinSpace ((pySplitWs (joinSpace p.1)).take 200),
          modelCalls := p.2 + 1,
          cacheWrite := some (summary_cache_key text2,
            joinSpace ((pySplitWs (joinSpace p.1)).take 200)) }
  else
    { result := joinSpace p.1, modelCalls := p.2,
      cacheWrite := some (summary_cache_key text2, joinSpace p.1) }

/-- The cache-miss body of `generate_summary` (`ai.py` lines 125-200): cap the
input, chunk it, return the first 500 characters uncached when no chunks
exist, otherwise summarize chunk-wise and finish. -/
def generate_summary_fresh (env : AiEnv) (text : PyStr) : SummaryOutcome :=
  if (chunk_text (env.sent_tokenize (truncateInput text)) CHUNK_MAX_WORDS).isEmpty then
    { result := (truncateInput text).take 500, modelCalls := 0, cacheWrite := none }
  else
    finishSummary env (truncateInput text)
      (summarizeChunks env
        (chunk_text (env.sent_tokenize (truncateInput text)) CHUNK_MAX_WORDS))

/-- `generate_summary(text, use_cache=True)` from `ai.py` lines 103-200 with
an available cache (the claim under verification presupposes one):
whitespace-only input returns `""` immediately; a truthy (non-empty) cached
summary under the hash of the *original* text is returned with no model
call; otherwise a new summary is generated.  Note the lookup key hashes the
original text while the store key inside the body hashes the possibly
truncated rebinding. -/
def generate_summary (env : AiEnv) (cache : PyStr → Option PyStr)
    (text : PyStr) : SummaryOutcome :=
  if (pyStrip text).isEmpty then { result := [], modelCalls := 0, cacheWrite := none }
  else
    match cache (summary_cache_key text) with
    | some cached =>
        if cached.isEmpty then generate_summary_fresh env text
        else { result := cached, modelCalls := 0, cacheWrite := none }
    | none => generate_summary_fresh env text

/-- The cache state after a call's write (best-effort `set_cache` modeled as
succeeding, per the claim's available-cache premise). -/
def applyWrite (cache : PyStr → Option PyStr) :
    Option (PyStr × PyStr) → PyStr → Option PyStr
  | none => cache
  | some (k, v) => fun k2 => if k2 = k then some v else cache k2

/- ### C4: summarization cache idempotence -/

theorem truncateInput_eq {text : PyStr}
    (hlen : (pySplitWs text).length ≤ MAX_INPUT_WORDS) :
    truncateInput text = text :=
  if_neg (by omega)

theorem generate_summary_miss (env : AiEnv) (cache : PyStr → Option PyStr)
    (text : PyStr) (hstrip : (pyStrip text).isEmpty = false)
    (hc : cache (summary_cache_key text) = none) :
    generate_summary env cache text = generate_summary_fresh env text := by
  simp only [generate_summary, hstrip, Bool.false_eq_true, if_false, hc]

theorem generate_summary_hit (env : AiEnv) (cache : PyStr → Option PyStr)
    (text val : PyStr) (hstrip : (pyStrip text).isEmpty = false)
    (hc : cache (summary_cache_key text) = some val)
    (hval : val.isEmpty = false) :
    generate_summary env cache text =
      { result := val, modelCalls := 0, cacheWrite := none } := by
  simp only [generate_summary, hstrip, Bool.false_eq_true, if_false, hc, hval]

theorem generate_summary_hit_empty (env : AiEnv) (cache : PyStr → Option PyStr)
    (text : PyStr) (hstrip : (pyStrip text).isEmpty = false)
    (hc : cache (summary_cache_key text) = some []) :
    generate_summary env cache text = generate_summary_fresh env text := by
  simp only [generate_summary, hstrip, Bool.false_eq_true, if_false, hc,
    List.isEmpty_nil, if_true]

theorem generate_summary_fresh_spec (env : AiEnv) (text : PyStr) :
    generate_summary_fresh env text =
      { result := (truncateInput text).take 500, modelCalls := 0, cacheWrite := none } ∨
    (generate_summary_fresh env text).cacheWrite =
      some (summary_cache_key (truncateInput text),
        (generate_summary_fresh env text).result) := by
  rw [generate_summary_fresh]
  by_cases hch :
      (chunk_text (env.sent_tokenize (truncateInput text)) CHUNK_MAX_WORDS).isEmpty
  · rw [if_pos hch]; exact Or.inl rfl
  · rw [if_neg hch]
    right
    rw [finishSummary]
    split
    · split <;> rfl
    · rfl

theorem applyWrite_self (cache : PyStr → Option PyStr) (k : PyStr) (v : PyStr) :
    applyWrite cache (some (k, v)) k = some v := by
  simp [applyWrite]

theorem summary_fresh_path (env : AiEnv) (cache : PyStr → Option PyStr) (text : PyStr)
    (hstrip : (pyStrip text).isEmpty = false)
    (htr : truncateInput text = text)
    (hG : generate_summary env cache text = generate_summary_fresh env text) :
    (∀ k v, (generate_summary env cache text).cacheWrite = some (k, v) →
      k = summary_cache_key text ∧ v = (generate_summary env cache text).result) ∧
    ((generate_summary env cache text).result ≠ [] →
      (generate_summary env
          (applyWrite cache (generate_summary env cache text).cacheWrite) text).result =
        (generate_summary env cache text).result ∧
      (generate_summary env
          (applyWrite cache (generate_summary env cache text).cacheWrite) text).modelCalls
        = 0) := by
  rcases generate_summary_fresh_spec env text with hsp | hsp
  · have hw : (generate_summary env cache text).cacheWrite = none := by
      rw [hG, hsp]
    refine ⟨?_, ?_⟩
    · intro k v h
      rw [hw] at h
      cases h
    · intro _
      rw [hw, show applyWrite cache none = cache from rfl]
      exact ⟨rfl, by rw [hG, hsp]⟩
  · rw [htr] at hsp
    refine ⟨?_, ?_⟩
    · intro k v h
      rw [hG, hsp] at h
      simp only [Option.some.injEq, Prod.mk.injEq] at h
      exact ⟨h.1.symm, by rw [hG]; exact h.2.symm⟩
    · intro hne
      rw [hG] at hne ⊢
      rw [hsp]
      have hlook : applyWrite cache
          (some (summary_cache_key text, (generate_summary_fresh env text).result))
          (summary_cache_key text) = some (generate_summary_fresh env text).result :=
        applyWrite_self cache _ _
      have hval : ((generate_summary_fresh env text).result).isEmpty = false := by
        rw [← Bool.not_eq_true]
        intro hemp
        exact hne (List.isEmpty_iff.mp hemp)
      rw [generate_summary_hit env _ text (generate_summary_fresh env text).result
        hstrip hlook hval]
      exact ⟨rfl, rfl⟩

/-- C4 (amended): for inputs of at most 3000 words (so the input cap does not
rebind the text), the lookup key equals the store key, and a second identical
call with the cache populated by the first returns exactly the first call's
result with zero summarizer invocations.  For longer inputs the claim fails:
the summary is stored under the hash of the truncated text, which differs
from the lookup hash of the original. -/
theorem summary_cache_idempotent (env : AiEnv) (cache : PyStr → Option PyStr)
    (text : PyStr) (hlen : (pySplitWs text).length ≤ MAX_INPUT_WORDS) :
    (∀ k v, (generate_summary env cache text).cacheWrite = some (k, v) →
      k = summary_cache_key text ∧ v = (generate_summary env cache text).result) ∧
    ((generate_summary env cache text).result ≠ [] →
      (generate_summary env
          (applyWrite cache (generate_summary env cache text).cacheWrite) text).result =
        (generate_summary env cache text).result ∧
      (generate_summary env
          (applyWrite cache (generate_summary env cache text).cacheWrite) text).modelCalls
        = 0) := by
  by_cases hstrip : (pyStrip text).isEmpty
  · have h0 : generate_summary env cache text =
        { result := [], modelCalls := 0, cacheWrite := none } := by
      rw [generate_summary, if_pos hstrip]
    refine ⟨?_, ?_⟩
    · intro k v h
      rw [h0] at h
      cases h
    · intro hne
      rw [h0] at hne
      exact absurd rfl hne
  · have hstrip' : (pyStrip text).isEmpty = false := Bool.eq_false_iff.mpr hstrip
    have htr := truncateInput_eq hlen
    cases hc : cache (summary_cache_key text) with
    | none =>
        exact summary_fresh_path env cache text hstrip' htr
          (generate_summary_miss env cache text hstrip' hc)
    | some val =>
        by_cases hvemp : val.isEmpty
        · have hval : val = [] := List.isEmpty_iff.mp hvemp
          subst hval
          exact summary_fresh_path env cache text hstrip' htr
            (generate_summary_hit_empty env cache text hstrip' hc)
        · have hG := generate_summary_hit env cache text val hstrip' hc
            (Bool.eq_false_iff.mpr hvemp)
          refine ⟨?_, ?_⟩
          · intro k v h
            rw [hG] at h
            cases h
          · intro _
            have hw : (generate_summary env cache text).cacheWrite = none := by rw [hG]
            rw [hw, show applyWrite cache none = cache from rfl]
            exact ⟨rfl, by rw [hG]⟩

/-- `n` one-letter words. -/
def wordsRep (n : Nat) : List PyStr := List.replicate n ['a']

/-- The text `"a a ... a"` of `n` one-letter words. -/
def textRep (n : Nat) : PyStr := joinSpace (wordsRep n)

/-- An input of 3001 one-letter words, one over the `MAX_INPUT_WORDS` cap. -/
abbrev cexLongText : PyStr := textRep 3001

/-- The same input truncated to the 3000-word cap. -/
abbrev cexTruncText : PyStr := textRep 3000

/-- Summarization environment for the C4 scenario: the tokenizer yields one
sentence, the summarizer deterministically returns `"S"`. -/
def cexAiEnv : AiEnv :=
  { sent_tokenize := fun t => [t], summarize := fun _ => Except.ok ['S'] }

theorem textRep_succ_succ (n : Nat) : textRep (n + 2) = 'a' :: ' ' :: textRep (n + 1) := rfl

theorem pySplitWs_textRep (n : Nat) : pySplitWs (textRep n) = wordsRep n := by
  induction n with
  | zero => rfl
  | succ k ih =>
      cases k with
      | zero => rfl
      | succ m =>
          calc pySplitWs (textRep (m + 2))
              = splitWsAux (['a'] ++ ' ' :: textRep (m + 1)) [] := rfl
            _ = splitWsAux ['a'] [] ++ splitWsAux (textRep (m + 1)) [] :=
                splitWsAux_append_space (textRep (m + 1)) ['a'] []
            _ = [['a']] ++ pySplitWs (textRep (m + 1)) := rfl
            _ = [['a']] ++ wordsRep (m + 1) := by rw [ih]
            _ = wordsRep (m + 2) := rfl

theorem textRep_reverse (n : Nat) : ∃ t, (textRep (n + 1)).reverse = 'a' :: t := by
  induction n with
  | zero => exact ⟨[], rfl⟩
  | succ m ih =>
      obtain ⟨t, ht⟩ := ih
      refine ⟨t ++ [' ', 'a'], ?_⟩
      rw [show textRep (m + 2) = ['a', ' '] ++ textRep (m + 1) from rfl,
        List.reverse_append, ht]
      rfl

theorem textRep_head (n : Nat) : ∃ u, textRep (n + 1) = 'a' :: u := by
  cases n with
  | zero => exact ⟨[], rfl⟩
  | succ m => exact ⟨' ' :: textRep (m + 1), rfl⟩

theorem pyStrip_textRep (n : Nat) : pyStrip (textRep (n + 1)) = textRep (n + 1) := by
  obtain ⟨u, hu⟩ := textRep_head n
  obtain ⟨t, ht⟩ := textRep_reverse n
  rw [pyStrip, hu, List.dropWhile_cons, if_neg (by decide), ← hu, ht,
    List.dropWhile_cons, if_neg (by decide), ← ht, List.reverse_reverse]

theorem wordCount_textRep (n : Nat) : wordCount (textRep n) = n := by
  rw [wordCount, pySplitWs_textRep, wordsRep, List.length_replicate]

theorem textRep_length (n : Nat) : (textRep (n + 1)).length = 2 * n + 1 := by
  induction n with
  | zero => rfl
  | succ m ih =>
      rw [textRep_succ_succ, List.length_cons, List.length_cons, ih]
      omega

theorem get_text_hash_textRep (n : Nat) :
    get_text_hash (textRep (n + 1)) = textRep (n + 1) := by
  rw [get_text_hash, pyStrip_textRep, pySplitWs_textRep]
  rfl

theorem textRep_chars (n : Nat) : ∀ c ∈ textRep n, c = 'a' ∨ c = ' ' := by
  induction n with
  | zero => intro c hc; cases hc
  | succ m ih =>
      cases m with
      | zero =>
          intro c hc
          rcases List.mem_singleton.mp hc with rfl
          exact Or.inl rfl
      | succ k =>
          intro c hc
          rw [textRep_succ_succ] at hc
          rcases List.mem_cons.mp hc with rfl | hc
          · exact Or.inl rfl
          · rcases List.mem_cons.mp hc with rfl | hc
            · exact Or.inr rfl
            · exact ih c hc

theorem escape_id {s : PyStr} (h : ∀ c ∈ s, jsonEscapeChar c = [c]) :
    (s.map jsonEscapeChar).flatten = s := by
  induction s with
  | nil => rfl
  | cons c cs ih =>
      rw [List.map_cons, List.flatten_cons, h c (by simp),
        ih (fun x hx => h x (by simp [hx]))]
      rfl

theorem escape_textRep (n : Nat) :
    ((textRep n).map jsonEscapeChar).flatten = textRep n := by
  apply escape_id
  intro c hc
  rcases textRep_chars n c hc with rfl | rfl <;> decide

theorem summary_key_mismatch :
    summary_cache_key cexTruncText ≠ summary_cache_key cexLongText := by
  intro heq
  have hh1 : get_text_hash cexTruncText = cexTruncText := by
    have h := get_text_hash_textRep 2999
    norm_num at h
    exact h
  have hh2 : get_text_hash cexLongText = cexLongText := by
    have h := get_text_hash_textRep 3000
    norm_num at h
    exact h
  rw [summary_cache_key, summary_cache_key, hh1, hh2] at heq
  have hesc : (cexTruncText.map jsonEscapeChar).flatten =
      (cexLongText.map jsonEscapeChar).flatten := by
    simpa [generate_cache_key, sortItems, List.insertionSort, List.orderedInsert,
      itemLe, jsonItems, jsonItem, commaJoin, jsonQuote, jsonOfVal, jsonEscapeChar,
      pyReprTuple, List.append_cancel_left_eq, List.append_cancel_right_eq] using heq
  rw [show cexTruncText = textRep 3000 from rfl, show cexLongText = textRep 3001 from rfl,
    escape_textRep, escape_textRep] at hesc
  have hlen := congrArg List.length hesc
  have h1 := textRep_length 2999
  have h2 := textRep_length 3000
  norm_num at h1 h2
  rw [h1, h2] at hlen
  omega

theorem strip_cexLongText : (pyStrip cexLongText).isEmpty = false := by
  have h := pyStrip_textRep 3000
  norm_num at h
  rw [show (cexLongText : PyStr) = textRep 3001 from rfl, h]
  rfl

theorem wordCount_cexTruncText : wordCount cexTruncText = 3000 := wordCount_textRep 3000

theorem chunk_cexTruncText :
    chunk_text [cexTruncText] CHUNK_MAX_WORDS = [cexTruncText] := by
  rw [chunk_text, chunkGroups]
  have h1 : chunkAux CHUNK_MAX_WORDS [] 0 [cexTruncText] = [[cexTruncText]] := by
    simp only [chunkAux, wordCount_cexTruncText]
    norm_num [CHUNK_MAX_WORDS]
  rw [h1]
  rfl

theorem truncate_cexLongText : truncateInput cexLongText = cexTruncText := by
  rw [truncateInput, pySplitWs_textRep]
  rw [if_pos (by rw [wordsRep, List.length_replicate]; decide)]
  rw [wordsRep, List.take_replicate]
  rfl

theorem summarize_cexTruncText :
    summarizeChunks cexAiEnv [cexTruncText] = ([['S']], 1) := by
  simp only [summarizeChunks, wordCount_cexTruncText]
  norm_num
  rfl

theorem fresh_cexLongText :
    generate_summary_fresh cexAiEnv cexLongText =
      { result := ['S'], modelCalls := 1,
        cacheWrite := some (summary_cache_key cexTruncText, ['S']) } := by
  rw [generate_summary_fresh, truncate_cexLongText]
  rw [show cexAiEnv.sent_tokenize cexTruncText = [cexTruncText] from rfl]
  rw [chunk_cexTruncText]
  rw [if_neg (by decide), summarize_cexTruncText, finishSummary]
  rw [if_neg (by decide)]
  rfl

theorem first_call_cexLongText :
    generate_summary cexAiEnv (fun _ => none) cexLongText =
      { result := ['S'], modelCalls := 1,
        cacheWrite := some (summary_cache_key cexTruncText, ['S']) } := by
  rw [generate_summary_miss cexAiEnv (fun _ => none) cexLongText strip_cexLongText rfl,
    fresh_cexLongText]

/-- C4 counterexample: for an input over the 3000-word cap, the first call
stores the new summary under the hash of the *truncated* text — a key
different from the one checked before generation (the hash of the original
text) — so the second identical call misses the cache and invokes the Model
Service again (one summarizer call instead of the claimed zero). -/
theorem summary_truncation_key_mismatch_counterexample :
    (generate_summary cexAiEnv (fun _ => none) cexLongText).cacheWrite =
      some (summary_cache_key cexTruncText, ['S']) ∧
    summary_cache_key cexTruncText ≠ summary_cache_key cexLongText ∧
    (generate_summary cexAiEnv
        (applyWrite (fun _ => none)
          (generate_summary cexAiEnv (fun _ => none) cexLongText).cacheWrite)
        cexLongText).modelCalls = 1 := by
  refine ⟨by rw [first_call_cexLongText], summary_key_mismatch, ?_⟩
  rw [first_call_cexLongText]
  have hlook : applyWrite (fun _ => none)
      (some (summary_cache_key cexTruncText, ['S']))
      (summary_cache_key cexLongText) = none := by
    show (if summary_cache_key cexLongText = summary_cache_key cexTruncText
        then some ['S'] else (none : Option PyStr)) = none
    rw [if_neg (fun h => summary_key_mismatch h.symm)]
  rw [generate_summary_miss cexAiEnv _ cexLongText strip_cexLongText hlook,
    fresh_cexLongText]

/-- Witness for `summary_cache_idempotent` at a concrete input. -/
theorem summary_cache_idempotent_witness :
    (∀ k v,
      (generate_summary { sent_tokenize := fun t => [t], summarize := fun _ => Except.ok ['S'] }
          (fun _ => none) "hello world".toList).cacheWrite = some (k, v) →
      k = summary_cache_key "hello world".toList ∧
      v = (generate_summary
          { sent_tokenize := fun t => [t], summarize := fun _ => Except.ok ['S'] }
          (fun _ => none) "hello world".toList).result) ∧
    ((generate_summary { sent_tokenize := fun t => [t], summarize := fun _ => Except.ok ['S'] }
        (fun _ => none) "hello world".toList).result ≠ [] →
      (generate_summary { sent_tokenize := fun t => [t], summarize := fun _ => Except.ok ['S'] }
          (applyWrite (fun _ => none)
            (generate_summary
              { sent_tokenize := fun t => [t], summarize := fun _ => Except.ok ['S'] }
              (fun _ => none) "hello world".toList).cacheWrite)
          "hello world".toList).result =
        (generate_summary
          { sent_tokenize := fun t => [t], summarize := fun _ => Except.ok ['S'] }
          (fun _ => none) "hello world".toList).result ∧
      (generate_summary { sent_tokenize := fun t => [t], summarize := fun _ => Except.ok ['S'] }
          (applyWrite (fun _ => none)
            (generate_summary
              { sent_tokenize := fun t => [t], summarize := fun _ => Except.ok ['S'] }
              (fun _ => none) "hello world".toList).cacheWrite)
          "hello world".toList).modelCalls = 0) :=
  summary_cache_idempotent
    { sent_tokenize := fun t => [t], summarize := fun _ => Except.ok ['S'] }
    (fun _ => none) "hello world".toList (by decide)

end DocPlatform
